import Mathlib

/-!
Verification of the otawa-dcache data-cache categorization engine.

This file shallowly embeds the parts of the source that the claims C1..C10
are about:

* the ACS age vectors and the `ACSDomain` parameters (`src/dcache_ACS.cpp`,
  `unnamed/part_005`), where ages and the TOP-detection bound `sumA` are
  stored in the 8-bit `ACS::age_t` (so all byte-valued quantities are
  reduced mod 256 and `ACS::BOT = 255`);
* the MUST, MAY and PERS transfer functions and joins (`unnamed/part_000`,
  `dcache_CLPAccessBuilder.cpp` second part, `dcache_PERS.cpp`);
* the access descriptor and its set test (`dcache.cpp`);
* the solver query `Analysis::at` (`unnamed/part_002`);
* the event builder's classification and per-block event construction
  (`dcache_EventBuilder.cpp`);
* the category builder's ENUM combination (`dcache_CategoryBuilder.cpp`);
* the CLP access builder's range branch (`dcache_CLPAccessBuilder.cpp`);
* the ACS and MultiPERS save/load byte formats (`dcache_ACS.cpp`,
  `dcache_CategoryBuilder.cpp` second part);
* a concrete LRU cache-set semantics used to discuss MUST soundness.

States handed around by the source domains are pointers; the BOT element is
compared by pointer identity and is therefore modelled as `none`, every
other ACS as `some` of its age vector.  The TOP object of each domain is an
ACS filled with a constant, so it is modelled by its value; the source's
pointer comparisons with TOP are modelled as value comparisons, which is
observationally equivalent because every place the source returns its TOP
object, the value of that object is the same vector.
-/

namespace Dcache

/-- `ACS::age_t` is `t::uint8`; `ACS::BOT = 255` (unnamed/part_005). -/
def AGE_BOT : Nat := 255

/-- An ACS age vector: one byte-valued age per cache block of the set. -/
abbrev AgeVec := List Nat

/-- A domain state: `none` is the BOT sentinel (compared by pointer in the
source), `some v` any other ACS with age vector `v`. -/
abbrev AcsState := Option AgeVec

/-- The per-set parameters of `ACSDomain` (unnamed/part_005, dcache_ACS.cpp):
`assoc` is the associativity passed to the constructor and `n` the block
count of the set.  The fields `A` and `sumA` are declared with type
`ACS::age_t`, an 8-bit type, hence the reductions mod 256 below. -/
structure DomParams where
  assoc : Nat
  n : Nat

/-- Field `A` of `ACSDomain`: the associativity stored in `ACS::age_t`. -/
def DomParams.A (d : DomParams) : Nat := d.assoc % 256

/-- Field `sumA` of `ACSDomain`: `assoc * collection.blockCount(set)`
truncated by the 8-bit field it is stored in. -/
def DomParams.sumA (d : DomParams) : Nat := (d.assoc * d.n) % 256

/-- `make(i)` fills an ACS of `N` entries with the byte `i`. -/
def makeVec (d : DomParams) (i : Nat) : AgeVec := List.replicate d.n (i % 256)

/-- MUST and PERS pass `top = assoc` to `ACSDomain`, so their TOP ACS is the
vector of all `A`. -/
def mustTopVec (d : DomParams) : AgeVec := makeVec d d.assoc

/-- MAY passes `top = 0` to `ACSDomain` (`MAY::MAY` in
dcache_CLPAccessBuilder.cpp, second part), so the MAY TOP ACS is the
all-zero vector. -/
def mayTopVec (d : DomParams) : AgeVec := makeVec d 0

/-- MAY's `EMPTY` entry state is `make(0)`: the all-zero vector. -/
def mayEntryVec (d : DomParams) : AgeVec := makeVec d 0

/-- PERS's `EMPTY` entry state is `make(ACS::BOT)`: all entries `⊥`. -/
def persEntryVec (d : DomParams) : AgeVec := makeVec d AGE_BOT

/-- PERS's TOP (top parameter = assoc): the vector of all `A`. -/
def persTopVec (d : DomParams) : AgeVec := makeVec d d.assoc

/-! ### MUST domain (unnamed/part_000, `MUST::*`) -/

/-- `MUST::join`: BOT is identity, TOP absorbs, otherwise pointwise max,
promoted to TOP when the integer sum of the resulting ages equals `sumA`. -/
def mustJoin (d : DomParams) : AcsState → AcsState → AcsState
  | none, s2 => s2
  | some v1, none => some v1
  | some v1, some v2 =>
    if v1 = mustTopVec d ∨ v2 = mustTopVec d then some (mustTopVec d)
    else
      let os := List.zipWith max v1 v2
      if os.sum = d.sumA then some (mustTopVec d) else some os

/-- `MUST::access(is, b)`: every entry at most as old as `b`'s age and not
already `A` ages by one (stored back into an 8-bit cell), then `b`'s age
becomes 0. -/
def mustAccess (d : DomParams) (v : AgeVec) (b : Nat) : AgeVec :=
  let ba := v.getD b 0
  (v.map (fun x => if x ≤ ba ∧ x ≠ d.A then (x + 1) % 256 else x)).set b 0

/-- `MUST::purge(is, b)`: age of `b` becomes `A`; result promoted to TOP when
the sum of ages equals `sumA`. -/
def mustPurge (d : DomParams) (v : AgeVec) (b : Nat) : AcsState :=
  let os := v.set b d.A
  if os.sum = d.sumA then some (mustTopVec d) else some os

/-- `MUST::accessAny(is)`: every age incremented, saturated at `A` (computed
in `int`, so no byte wrap); promoted to TOP when the sum equals `sumA`. -/
def mustAccessAny (d : DomParams) (v : AgeVec) : AcsState :=
  let os := v.map (fun x => min d.A (x + 1))
  if os.sum = d.sumA then some (mustTopVec d) else some os

/-! ### MAY domain (dcache_CLPAccessBuilder.cpp, second part, `MAY::*`) -/

/-- `MAY::join`: BOT is identity, TOP absorbs, otherwise pointwise min,
promoted to the (all-zero) TOP when the sum of the resulting ages equals
`sumA`. -/
def mayJoin (d : DomParams) : AcsState → AcsState → AcsState
  | none, s2 => s2
  | some v1, none => some v1
  | some v1, some v2 =>
    if v1 = mayTopVec d ∨ v2 = mayTopVec d then some (mayTopVec d)
    else
      let os := List.zipWith min v1 v2
      if os.sum = d.sumA then some (mayTopVec d) else some os

/-- `MAY::purge(is, b)`: age of `b` becomes `A`; promoted to TOP when the
sum of ages equals `sumA`. -/
def mayPurge (d : DomParams) (v : AgeVec) (b : Nat) : AcsState :=
  let os := v.set b d.A
  if os.sum = d.sumA then some (mayTopVec d) else some os

/-! ### PERS domain (dcache_PERS.cpp, `PERS::join`) -/

/-- One position of the PERS join: a `⊥` age is absorbed by the other
operand's age, otherwise the maximum is taken. -/
def persAbsorb (a b : Nat) : Nat :=
  if a = AGE_BOT then b else if b = AGE_BOT then a else max a b

/-- `PERS::join`: BOT is identity; otherwise the absorbing pointwise max is
computed while accumulating the sum of the resulting entries (a `⊥` entry
contributes its byte encoding 255, exactly as in the source's
`sum += s->age[i]`) and the count of entries `< A` and `≠ ⊥`; the result is
kept when `cnt ≤ A` and `sum ≠ sumA` and replaced by TOP otherwise. -/
def persJoin (d : DomParams) : AcsState → AcsState → AcsState
  | none, s2 => s2
  | some v1, none => some v1
  | some v1, some v2 =>
    let s := List.zipWith persAbsorb v1 v2
    let cnt := s.countP (fun x => decide (x < d.A) && decide (x ≠ AGE_BOT))
    let sum := s.sum
    if cnt ≤ d.A ∧ sum ≠ d.sumA then some s else some (persTopVec d)

/-! ### Access descriptors (dcache.cpp, unnamed/part_004) -/

/-- A memory bank descriptor (`hard::Bank`): identity, read/write latency
and the cached flag.  Only the parts the claims use are modelled. -/
structure Bank where
  bid : Nat
  readLatency : Nat
  writeLatency : Nat
  isCached : Bool
deriving DecidableEq

/-- `CacheBlock` (unnamed/part_004): tag, set, dense id, bank.  The source
uses id `-1` for blocks of non-cached banks; the claims below only exercise
cached blocks, whose ids are dense naturals. -/
structure CacheBlock where
  tag : Nat
  set : Nat
  id : Nat
  bank : Bank
deriving DecidableEq

/-- `action_t` (unnamed/part_004). -/
inductive ActionT where
  | noAccess
  | load
  | store
  | purgeA
  | directLoad
  | directStore
deriving DecidableEq

/-- The kind tag together with its payload (`kind_t` plus the `data` union
of `Access`). -/
inductive KindPayload where
  | anyK : KindPayload
  | blockK (cb : CacheBlock) : KindPayload
  | rangeK (fst lst : Nat) : KindPayload
  | enumK (fst lst : Nat) (bs : List CacheBlock) : KindPayload
deriving DecidableEq

/-- A data-cache `Access` (dcache.cpp): the instruction back-reference,
type and multi-access index play no role in the claims and are omitted. -/
structure Access where
  action : ActionT
  kind : KindPayload
deriving DecidableEq

/-- `Access::access(int set)` (dcache.cpp:326): ANY touches every set, BLOCK
its block's set; the default branch (RANGE and ENUM) tests
`f <= set && set <= l` when `f < l` and `f <= set || set <= l` otherwise. -/
def Access.accessSet (a : Access) (set : Nat) : Bool :=
  match a.kind with
  | .anyK => true
  | .blockK cb => cb.set == set
  | .rangeK f l => if f < l then f ≤ set ∧ set ≤ l else f ≤ set ∨ set ≤ l
  | .enumK f l _ => if f < l then f ≤ set ∧ set ≤ l else f ≤ set ∨ set ≤ l

/-- `Access::blockIn(int set)` (dcache.cpp:377) for ENUM accesses.  The
source indexes the block vector with `int` arithmetic; the subtractions are
mirrored on `Nat` and out-of-range indices yield `none` where the source
would fault. -/
def Access.blockIn (a : Access) (set : Nat) : Option CacheBlock :=
  match a.kind with
  | .enumK f l bs =>
    if a.accessSet set then
      if f ≤ l ∨ set ≥ f then bs.get? (set - f)
      else bs.get? (bs.length - l + set - 1)
    else none
  | _ => none

/-! ### MUST access transfer `MUST::update` (unnamed/part_000) -/

/-- `MUST::update(const Access&, State*)`.  The outer `Option` is the
normal-execution monad: `none` models a failed source assertion (the
`PURGE`/`ENUM` case calls `Access::block()` whose `ASSERT(_kind == BLOCK)`
fails, and a missing `blockIn` dereferences a null pointer). -/
def mustUpdate (d : DomParams) (S : Nat) (a : Access) (s : AcsState) :
    Option AcsState :=
  if ¬ a.accessSet S then some s
  else
    match s with
    | none => some none
    | some v =>
      match a.action with
      | .noAccess => some (some v)
      | .load | .store =>
        match a.kind with
        | .anyK => some (mustAccessAny d v)
        | .blockK cb => some (some (mustAccess d v cb.id))
        | .enumK _ _ _ =>
          (a.blockIn S).map (fun cb => some (mustAccess d v cb.id))
        | .rangeK _ _ => some (mustAccessAny d v)
      | .purgeA =>
        match a.kind with
        | .anyK => some (some (mustTopVec d))
        | .blockK cb => some (mustPurge d v cb.id)
        | .enumK _ _ _ => none
        | .rangeK _ _ => some (some (mustTopVec d))
      | .directLoad | .directStore => some (some v)

/-! ### The solver query `Analysis::at` (unnamed/part_002:187) -/

/-- `Analysis::at(Block *v, const Access& a, ai::State *s, int S)`.

The source iterates over the accesses of the block; when it reaches `a`
(compared by address, modelled by the index `k`) it returns the current
state `cs`.  For every earlier access `b` touching set `S` it executes
`ns = doms[S]->update(a, s)` — note: the transfer of the *queried* access
`a` applied to the *original* block-entry state `s` — and makes `cs = ns`.
The fold below reproduces this behaviour value for value; `none` models the
final `ASSERTP(false, ...)` when `a` is not among the block's accesses, and
an inner assertion failure of `update` propagates. -/
def atAcs (upd : Access → AcsState → Option AcsState)
    (touches : Access → Bool) (accs : List Access) (k : Nat) (s : AcsState) :
    Option AcsState :=
  match accs.get? k with
  | none => none
  | some a =>
    (accs.take k).foldlM
      (fun cs b => if touches b then upd a s else pure cs) s

/-- Modelled from the spec: "`at(node, access, s)` — the ACS immediately
before `access` is applied inside `node`, obtained by replaying transfers
for earlier accesses in the same block", i.e. the transfer of every earlier
access touching the set is applied, in program order, to the running
state. -/
def atSpec (upd : Access → AcsState → Option AcsState)
    (touches : Access → Bool) (accs : List Access) (k : Nat) (s : AcsState) :
    Option AcsState :=
  match accs.get? k with
  | none => none
  | some _ =>
    (accs.take k).foldlM
      (fun cs b => if touches b then upd b cs else pure cs) s

/-- `MUSTAnalysis::age` reads `age[cb->id()]` of the ACS returned by `at`;
the BOT sentinel is an ACS filled with `ACS::BOT`, so reading it yields
255. -/
def stateAge (s : AcsState) (i : Nat) : Nat :=
  match s with
  | none => AGE_BOT
  | some v => v.getD i 0

/-- The MUST age of cache block `cb` seen by the k-th access of a block
whose incoming state is `s` (the composition used by `MUSTAnalysis::age`
through `Analysis::at`). -/
def mustAgeAt (d : DomParams) (S : Nat) (accs : List Access) (k : Nat)
    (cb : CacheBlock) (s : AcsState) : Option Nat :=
  (atAcs (mustUpdate d S) (fun b => b.accessSet S) accs k s).map
    (fun st => stateAge st cb.id)

/-! ### Concrete LRU semantics for one cache set

Used to discuss the soundness claim C9: a concrete cache set of
associativity `A` is the list of cached block ids in most-recently-used
order. -/

/-- One LRU access: the block moves to the front, the tail is truncated to
the associativity. -/
def lruAccess (A : Nat) (c : List Nat) (b : Nat) : List Nat :=
  (b :: c.filter (fun x => x ≠ b)).take A

/-- Run a sequence of concrete block accesses through the LRU set. -/
def lruRun (A : Nat) (c : List Nat) (bs : List Nat) : List Nat :=
  bs.foldl (lruAccess A) c

/-! ### Loop environment

A shallow model of the OTAWA loop/CFG API used by the classifiers:
blocks and loops are identified by naturals, every loop has a parent and a
header, and the sink's CFG exposes its caller information.  A single CFG is
modelled, which is all the classification walks of the claims observe. -/

structure LoopEnv where
  /-- `Loop::of(b)`: the innermost loop containing block `b`. -/
  loopOf : Nat → Nat
  /-- `Loop::parent()`. -/
  parent : Nat → Nat
  /-- `Loop::isTop()`. -/
  isTop : Nat → Bool
  /-- `Loop::header()`. -/
  headerOf : Nat → Nat
  /-- `e->sink()->cfg()->callCount()`. -/
  callCount : Nat
  /-- `Loop::of(*e->sink()->cfg()->callers().begin())`. -/
  callerLoop : Nat
  /-- `l->cfg()->entry()->outEdges().begin()->sink()`. -/
  entrySucc : Nat
  /-- A bound on the loop-nesting depth, used as fuel for the parent
  walks that the source performs on the finite loop tree. -/
  maxDepth : Nat

/-- One step of the `for(int i = 1; i < n; i++)` walk in
`EventBuilder::classify` (dcache_EventBuilder.cpp:188): move to the parent
loop, or across the single-caller boundary, or stop (`break` = `none`). -/
def walkStep (le : LoopEnv) (l : Nat) : Option Nat :=
  if ¬ le.isTop l then some (le.parent l)
  else if le.callCount == 1 then some le.callerLoop
  else none

/-- The whole walk: `i` runs from 1 to `n-1`, so `n-1` steps are taken,
stopping early at a `break`. -/
def walkLoop (le : LoopEnv) : Nat → Nat → Nat
  | l, 0 => l
  | l, i + 1 =>
    match walkStep le l with
    | none => l
    | some l2 => walkLoop le l2 i

/-- The `while(!l->parent()->isTop()) l = l->parent()` climb of the PERS
branch, with the loop-tree depth as fuel. -/
def climbOutermost (le : LoopEnv) : Nat → Nat → Nat
  | l, 0 => l
  | l, fuel + 1 =>
    if ¬ le.isTop (le.parent l) then climbOutermost le (le.parent l) fuel
    else l

/-- `Loop::includes`: the loop `inner` is inside `outer` (reflexively),
decided by climbing the parent chain of `inner`. -/
def loopIncludes (le : LoopEnv) (outer inner : Nat) : Bool :=
  go inner le.maxDepth
where
  go : Nat → Nat → Bool
    | l, 0 => l == outer
    | l, fuel + 1 =>
      if l == outer then true
      else if le.isTop l then false
      else go (le.parent l) fuel

/-! ### Event builder (dcache_EventBuilder.cpp) -/

/-- `otawa::Event::occurrence_t` with the values used by the builder. -/
inductive Occurrence where
  | never
  | sometimes
  | always
  | noOccurrence
deriving DecidableEq

/-- The age-analysis answers that `EventBuilder::classify` consults for one
`(edge, access, cache block)` triple: the MUST age is always available;
MAY, PERS and MultiPERS are optional analyses (`nullptr` when absent,
modelled by `none`). -/
structure AgeEnv where
  A : Nat
  mustAge : Nat
  mpersLevel : Option Nat
  persAge : Option Nat
  mayAge : Option Nat

/-- The PERS / MAY / NC tail of `EventBuilder::classify`
(dcache_EventBuilder.cpp:205): reached when the MUST test fails and the
MultiPERS branch did not return. -/
def classifyRest (env : AgeEnv) (le : LoopEnv) (sink : Nat) :
    Occurrence × Option Nat :=
  match env.persAge with
  | some pa =>
    if pa < env.A then
      let l0 := le.loopOf sink
      let l := if ¬ le.isTop l0 then climbOutermost le l0 le.maxDepth else l0
      let h := if le.isTop l then le.entrySucc else le.headerOf l
      (.sometimes, some h)
    else
      match env.mayAge with
      | some ma =>
        if ma ≥ env.A then (.never, none) else (.sometimes, none)
      | none => (.sometimes, none)
  | none =>
    match env.mayAge with
    | some ma =>
      if ma ≥ env.A then (.never, none) else (.sometimes, none)
    | none => (.sometimes, none)

/-- `EventBuilder::classify` (dcache_EventBuilder.cpp:176): AH gives
`(NEVER, null)`; a non-zero MultiPERS level gives `(SOMETIMES, h)` with `h`
obtained by the loop walk; then PERS, then MAY — whose Always-Miss case
returns `(NEVER, null)` — and otherwise `(SOMETIMES, null)`. -/
def classifyEv (env : AgeEnv) (le : LoopEnv) (sink : Nat) :
    Occurrence × Option Nat :=
  if env.mustAge < env.A then (.never, none)
  else
    match env.mpersLevel with
    | some nlev =>
      if nlev ≠ 0 then
        let l := walkLoop le (le.loopOf sink) (nlev - 1)
        let h := if le.isTop l then le.entrySucc else le.headerOf l
        (.sometimes, some h)
      else classifyRest env le sink
    | none => classifyRest env le sink

/-- The memory description: `mem->worstReadTime()` / `worstWriteTime()`. -/
structure MemEnv where
  worstRead : Nat
  worstWrite : Nat

/-- `EventBuilder::worstAccessTime` (dcache_EventBuilder.cpp:227). -/
def worstAccessTime (m : MemEnv) (act : ActionT) : Nat :=
  match act with
  | .load | .directLoad => m.worstRead
  | .store | .directStore => m.worstWrite
  | .noAccess | .purgeA => 0

/-- A built timing event: cost, occurrence and the bound expression
(the list of scope-anchor blocks added with coefficient 1). -/
structure Event where
  cost : Nat
  occ : Occurrence
  bound : List Nat
deriving DecidableEq

/-- `EventBuilder::processBlock` (dcache_EventBuilder.cpp:272): classify the
access's block, take the *bank's* read latency for a load and write latency
otherwise as the event cost, and attach `1·x_h` when a scope was found. -/
def processBlockEv (env : AgeEnv) (le : LoopEnv) (sink : Nat) (a : Access)
    (cb : CacheBlock) : Event :=
  let c := classifyEv env le sink
  let t := if a.action = .load then cb.bank.readLatency
           else cb.bank.writeLatency
  let xs := match c.2 with
            | some h => [h]
            | none => []
  ⟨t, c.1, xs⟩

/-! ### Category builder (dcache_CategoryBuilder.cpp) -/

/-- `category_t` (unnamed/part_004). -/
inductive Category where
  | noCat
  | ah
  | am
  | pe
  | nc
deriving DecidableEq

/-- The `if(nc == PE && c == PE)` body of `CategoryBuilder::processEnum`
(dcache_CategoryBuilder.cpp:157): on the first PE result the anchor `fh`
is set; afterwards the source computes `fl = Loop::of(fh)`,
`l = Loop::of(h)`, evaluates `fl->includes(l)` and updates the *local*
`fl = l` — but never writes anything back into `fh`, so `fh` keeps its
first value. -/
def peUpdate (le : LoopEnv) (fh h : Option Nat) : Option Nat :=
  match fh with
  | none => h
  | some b =>
    match h with
    | some hb =>
      let fl := le.loopOf b
      let l := le.loopOf hb
      let _fl2 := if loopIncludes le fl l then l else fl
      some b
    | none => some b

/-- The per-block combination loop of `CategoryBuilder::processEnum`
(dcache_CategoryBuilder.cpp:143): the first category is adopted, a
disagreement degrades to NC and breaks, and PE anchors are folded with
`peUpdate`.  `cls` is the per-block `classify` result. -/
def enumFold (le : LoopEnv) (cls : CacheBlock → Category × Option Nat) :
    List CacheBlock → Category → Option Nat → Category × Option Nat
  | [], c, fh => (c, fh)
  | cb :: rest, c, fh =>
    let r := cls cb
    if c = .noCat then
      let fh2 := if r.1 = .pe ∧ r.1 = .pe then peUpdate le fh r.2 else fh
      enumFold le cls rest r.1 fh2
    else if c ≠ r.1 then (.nc, fh)
    else
      let fh2 := if r.1 = .pe ∧ c = .pe then peUpdate le fh r.2 else fh
      enumFold le cls rest c fh2

/-- `CategoryBuilder::processEnum`: run the fold from `(NO_CAT, null)`;
the access then records the resulting category and, when it is PE, the
anchor `fh`. -/
def processEnumCat (le : LoopEnv) (cls : CacheBlock → Category × Option Nat)
    (bs : List CacheBlock) : Category × Option Nat :=
  let r := enumFold le cls bs .noCat none
  (r.1, if r.1 = .pe then r.2 else none)

/-- Modelled from the spec: "the scope anchor is the innermost of all
per-block anchors (under loop-inclusion ordering)" — the fold that replaces
the running anchor by the new one whenever the new anchor's loop is
included in the running anchor's loop. -/
def innermostUpdate (le : LoopEnv) (fh h : Option Nat) : Option Nat :=
  match fh with
  | none => h
  | some b =>
    match h with
    | some hb =>
      if loopIncludes le (le.loopOf b) (le.loopOf hb) then some hb else some b
    | none => some b

/-- Modelled from the spec: the innermost anchor of the PE results of the
per-block classification. -/
def innermostAnchor (le : LoopEnv) (cls : CacheBlock → Category × Option Nat)
    (bs : List CacheBlock) : Option Nat :=
  bs.foldl
    (fun fh cb =>
      let r := cls cb
      if r.1 = .pe then innermostUpdate le fh r.2 else fh)
    none

/-! ### The range branch of the CLP access builder
(dcache_CLPAccessBuilder.cpp:166) -/

/-- `asDirect` (dcache_CLPAccessBuilder.cpp:33). -/
def asDirect : ActionT → ActionT
  | .load => .directLoad
  | .store => .directStore
  | a => a

/-- The cache configuration bit consulted in the branch. -/
structure CacheCfg where
  writeAllocate : Bool

/-- The `// range access` else-branch of `CLPAccessBuilder::processBB` for a
constant address range whose bounds resolved to the cache blocks `lb` and
`hb` (both non-null, otherwise the source throws), with `bs` the blocks
collected by the source's address loop from `round(l)` to `round(h)`.

Control flow of the source: when the banks of `lb` and `hb` differ a warning
is emitted and an ANY access is appended; otherwise a non-cached bank makes
the action direct.  Execution then *falls through* (there is no `continue`)
to the write-allocate adjustment and to the final `if(lb == hb)` that
appends a BLOCK or ENUM access in every case.  The returned list holds the
accesses appended for this memory reference, in order. -/
def processRangeAccess (cc : CacheCfg) (action : ActionT)
    (lb hb : CacheBlock) (bs : List CacheBlock) : List Access :=
  let pre : List Access :=
    if lb.bank ≠ hb.bank then [⟨action, .anyK⟩] else []
  let a1 :=
    if lb.bank ≠ hb.bank then action
    else if ¬ lb.bank.isCached then asDirect action
    else action
  let a2 := if a1 = .store ∧ ¬ cc.writeAllocate then asDirect a1 else a1
  let fstSet := (bs.headD ⟨0, 0, 0, ⟨0, 0, 0, true⟩⟩).set
  let lstSet := (bs.getLastD ⟨0, 0, 0, ⟨0, 0, 0, true⟩⟩).set
  let main : Access :=
    if lb = hb then ⟨a2, .blockK lb⟩
    else ⟨a2, .enumK fstSet lstSet bs⟩
  pre ++ [main]

/-! ### ACS and MultiPERS save/load
(dcache_ACS.cpp:77, dcache_CategoryBuilder.cpp second part:549) -/

/-- `ACS::save(N, out)`: writes `N * sizeof(age_t)` bytes, i.e. the `N` age
bytes themselves. -/
def acsSave (N : Nat) (v : AgeVec) : List Nat :=
  v.take N

/-- `ACS::load(N, in)`: reads `N` bytes into the age array; returns the
loaded vector and the rest of the stream. -/
def acsLoad (N : Nat) (stream : List Nat) : AgeVec × List Nat :=
  (stream.take N, stream.drop N)

/-- Decode four little-endian bytes as the 32-bit depth read by
`MultiPERS::load`. -/
def le32 (bytes : List Nat) : Nat :=
  match bytes with
  | [b0, b1, b2, b3] => b0 + 256 * (b1 + 256 * (b2 + 256 * b3))
  | _ => 0

/-- `MultiPERS::save` (dcache_CategoryBuilder.cpp second part:549): the
source executes `out->write(reinterpret_cast<char *>(c), sizeof(c))` — it
writes the four bytes located *at address* `c` (the depth used as a
pointer), not the four bytes *of* `c`.  The bytes actually emitted are
whatever the memory at that address holds, modelled by the parameter
`memAtC`; then the per-level ACS blobs follow. -/
def multiSave (memAtC : List Nat) (levels : List AgeVec) (N : Nat) :
    List Nat :=
  memAtC.take 4 ++ (levels.map (acsSave N)).flatten

/-- The per-level loop of `MultiPERS::load`. -/
def loadLevels (N : Nat) : Nat → List Nat → List AgeVec
  | 0, _ => []
  | c + 1, st => (acsLoad N st).1 :: loadLevels N c (acsLoad N st).2

/-- `MultiPERS::load`: reads a 32-bit count `c` (through `&c`, correctly)
and then `c` ACS blobs of `N` bytes each. -/
def multiLoad (N : Nat) (stream : List Nat) : List AgeVec :=
  loadLevels N (le32 (stream.take 4)) (stream.drop 4)

/-- Modelled from the spec: the circular set interval `[first, last]`
modulo the set count — `first ≤ t ≤ last` without wrap, wrapping through
the last set when `first > last`; for `first = last` only `t = first` is
inside. -/
def circTouches (f l t : Nat) : Bool :=
  if f ≤ l then f ≤ t ∧ t ≤ l else f ≤ t ∨ t ≤ l

/-! ### Concrete fixtures used by the claim theorems -/

/-- A cached memory bank with read latency 1 and write latency 2. -/
def bank0 : Bank := ⟨0, 1, 2, true⟩

/-- A second, distinct cached bank. -/
def bank1 : Bank := ⟨1, 1, 2, true⟩

/-- Cache block `x`: set 0, id 0. -/
def cbX : CacheBlock := ⟨0, 0, 0, bank0⟩

/-- Cache block `y`: set 0, id 1 (a different tag of the same set). -/
def cbY : CacheBlock := ⟨1, 0, 1, bank0⟩

/-- A basic block performing `LOAD x` then `LOAD y`, both in set 0. -/
def twoLoads : List Access :=
  [⟨.load, .blockK cbX⟩, ⟨.load, .blockK cbY⟩]

/-- The domain of set 0 for a 2-way cache with the two blocks above. -/
def dom22 : DomParams := ⟨2, 2⟩

/-- The age answers of a Block access classified Always-Miss: 2-way cache,
MUST age 2, MultiPERS and PERS absent, MAY age 2. -/
def amEnv : AgeEnv := ⟨2, 2, none, none, some 2⟩

/-- The memory description used around claim C1: worst read 10, worst
write 20 (both larger than the bank latencies of `bank0`). -/
def mem0 : MemEnv := ⟨10, 20⟩

/-- A loop environment where every block is in the top loop; the
classification walks of the fixtures never use it. -/
def leTriv : LoopEnv :=
  ⟨fun _ => 0, fun _ => 0, fun _ => true, fun _ => 0, 0, 0, 7, 3⟩

/-- A loop environment with a top 0, an outer loop 1 and an inner loop 2;
block 10 sits in loop 1 and block 11 in loop 2. -/
def leNested : LoopEnv where
  loopOf b := if b = 10 then 1 else if b = 11 then 2 else 0
  parent l := if l = 2 then 1 else 0
  isTop l := l == 0
  headerOf l := l
  callCount := 0
  callerLoop := 0
  entrySucc := 99
  maxDepth := 3

/-- A per-block classification where block id 0 is PE anchored at block 10
(the outer loop) and every other block is PE anchored at block 11 (the
inner loop). -/
def clsNested (cb : CacheBlock) : Category × Option Nat :=
  if cb.id = 0 then (.pe, some 10) else (.pe, some 11)

/-- The cross-bank range fixture: the low bound block lies in `bank0`, the
high bound block in `bank1`. -/
def lbCross : CacheBlock := ⟨0, 0, 0, bank0⟩

/-- High bound of the cross-bank range. -/
def hbCross : CacheBlock := ⟨0, 1, 0, bank1⟩

/-! ## Claim theorems -/

/-- Claim C2 (code bug).  `Analysis::at` is documented to return "the state
before the execution of the access a", replaying the transfers of the
earlier accesses of the block; instead it applies the transfer of the
queried access itself to the block-entry state.  On the block
`[LOAD x, LOAD y]` of a 2-way set with entry state TOP = [2, 2], the query
for the second access returns the ACS `[2, 0]` — `y`'s own transfer applied
to the entry state — while the replay of the earlier `LOAD x` gives
`[0, 2]`. -/
theorem C2_theorem :
    atAcs (mustUpdate dom22 0) (fun b => b.accessSet 0) twoLoads 1
        (some (mustTopVec dom22)) = some (some [2, 0]) ∧
    atSpec (mustUpdate dom22 0) (fun b => b.accessSet 0) twoLoads 1
        (some (mustTopVec dom22)) = some (some [0, 2]) ∧
    atAcs (mustUpdate dom22 0) (fun b => b.accessSet 0) twoLoads 1
        (some (mustTopVec dom22)) ≠
      atSpec (mustUpdate dom22 0) (fun b => b.accessSet 0) twoLoads 1
        (some (mustTopVec dom22)) := by
  refine ⟨by decide, by decide, by decide⟩

/-- Claim C9 (code bug).  Because `Analysis::at` applies the queried
access's own transfer (claim C2), the MUST age reported for the second
access `LOAD y` of the block `[LOAD x, LOAD y]` is 0 < A = 2 even at the
program entry, where the MUST ACS is TOP; yet the concrete LRU execution
that reaches this block with an empty cache set has only performed `LOAD x`
before the queried access, so `y` (id 1) is not in the concrete cache set
and the access misses — contradicting the claimed soundness of
`MUST.age < A`. -/
theorem C9_theorem :
    mustAgeAt dom22 0 twoLoads 1 cbY (some (mustTopVec dom22)) = some 0 ∧
    0 < dom22.A ∧
    lruRun 2 [] [cbX.id] = [0] ∧
    cbY.id ∉ lruRun 2 [] [cbX.id] := by
  refine ⟨by decide, by decide, by decide, by decide⟩

/-- Claim C8 (code bug).  The ACS byte format round-trips, and
`MultiPERS::load` correctly reads a 32-bit depth followed by the ACS blobs;
but `MultiPERS::save` writes `reinterpret_cast<char *>(c)` — the four bytes
located at address `c` — instead of the bytes of `c`.  With a depth-1
MultiACS over `N = 3` and zero bytes at that address, the saved stream
starts with `[0,0,0,0]` instead of the encoding `[1,0,0,0]` of the depth,
and loading it back yields a MultiACS of depth 0 rather than 1; loading a
stream with the intended header recovers the state. -/
theorem C8_theorem :
    acsLoad 3 (acsSave 3 [1, 2, 3]) = ([1, 2, 3], []) ∧
    multiSave [0, 0, 0, 0] [[1, 2, 3]] 3 = [0, 0, 0, 0, 1, 2, 3] ∧
    multiLoad 3 (multiSave [0, 0, 0, 0] [[1, 2, 3]] 3) = [] ∧
    le32 [1, 0, 0, 0] = 1 ∧
    multiLoad 3 ([1, 0, 0, 0] ++ [1, 2, 3]) = [[1, 2, 3]] := by
  refine ⟨by decide, by decide, by decide, by decide, by decide⟩

/-- Claim C5 (code bug).  In `CategoryBuilder::processEnum` the innermost-
anchor computation `if(fl->includes(l)) fl = l;` updates a local variable
that is never written back, so the recorded anchor of a PE ENUM access is
the anchor of its *first* block.  With two blocks classified PE, the first
anchored at block 10 (outer loop 1) and the second at block 11 (inner
loop 2 ⊆ loop 1), the source records anchor 10 while the innermost of the
per-block anchors is 11. -/
theorem C5_theorem :
    processEnumCat leNested clsNested [cbX, cbY] = (.pe, some 10) ∧
    innermostAnchor leNested clsNested [cbX, cbY] = some 11 ∧
    loopIncludes leNested (leNested.loopOf 10) (leNested.loopOf 11) = true ∧
    processEnumCat leNested clsNested [cbX, cbY] ≠
      (.pe, innermostAnchor leNested clsNested [cbX, cbY]) := by
  refine ⟨by decide, by decide, by decide, by decide⟩

/-- Claim C7 (code bug).  For a constant range whose bounds fall into two
different banks, `CLPAccessBuilder::processBB` warns that the access is
"considered as T" and appends an ANY access — but the branch does not
`continue`, so control falls through and an ENUM access over the range's
blocks is appended as well: two accesses are recorded instead of exactly
one ANY access. -/
theorem C7_theorem :
    processRangeAccess ⟨true⟩ .load lbCross hbCross [lbCross, hbCross] =
      [⟨.load, .anyK⟩, ⟨.load, .enumK 0 1 [lbCross, hbCross]⟩] ∧
    (processRangeAccess ⟨true⟩ .load lbCross hbCross
        [lbCross, hbCross]).length ≠ 1 ∧
    lbCross.bank ≠ hbCross.bank := by
  refine ⟨by decide, by decide, by decide⟩

/-- Claim C1 (counterexample).  A BLOCK load whose classification is
Always-Miss (MUST age 2 = A, no MultiPERS/PERS, MAY age 2 ≥ A) produces,
through `EventBuilder::processBlock`, the event with cost 1 — the bank's
read latency — and occurrence NEVER; the claim's cost (the memory's worst
read time, 10) and occurrence ALWAYS both differ. -/
theorem C1_counterexample :
    processBlockEv amEnv leTriv 5 ⟨.load, .blockK cbX⟩ cbX =
      ⟨1, .never, []⟩ ∧
    (processBlockEv amEnv leTriv 5 ⟨.load, .blockK cbX⟩ cbX).cost ≠
      worstAccessTime mem0 .load ∧
    (processBlockEv amEnv leTriv 5 ⟨.load, .blockK cbX⟩ cbX).occ ≠
      .always := by
  refine ⟨by decide, by decide, by decide⟩

/-- Claim C1 (amended).  For a BLOCK access whose classification is
Always-Miss — MUST age ≥ A, MultiPERS absent or level 0, PERS absent or
age ≥ A, MAY present with age ≥ A — the event builder attaches an event
whose cost is the accessed block's *bank* read latency (for a load) or
write latency (otherwise), whose occurrence is NEVER, and whose bound is
empty. -/
theorem C1_theorem (env : AgeEnv) (le : LoopEnv) (sink : Nat) (a : Access)
    (cb : CacheBlock)
    (hmust : env.A ≤ env.mustAge)
    (hmp : env.mpersLevel = none ∨ env.mpersLevel = some 0)
    (hp : env.persAge = none ∨ ∃ pa, env.persAge = some pa ∧ env.A ≤ pa)
    (hmay : ∃ ma, env.mayAge = some ma ∧ env.A ≤ ma) :
    processBlockEv env le sink a cb =
      ⟨if a.action = .load then cb.bank.readLatency
        else cb.bank.writeLatency, .never, []⟩ := by
  obtain ⟨ma, hma, hmage⟩ := hmay
  have hrest : classifyRest env le sink = (.never, none) := by
    rcases hp with hp | ⟨pa, hpa, hpage⟩
    · simp [classifyRest, hp, hma, hmage]
    · simp [classifyRest, hpa, hma, hmage, Nat.not_lt.mpr hpage]
  have hcls : classifyEv env le sink = (.never, none) := by
    rcases hmp with hmp | hmp <;>
      simp [classifyEv, hmp, hrest, Nat.not_lt.mpr hmust]
  simp [processBlockEv, hcls]

/-- Claim C1 (witness of the amended theorem at the concrete Always-Miss
fixture). -/
theorem C1_witness :
    processBlockEv amEnv leTriv 5 ⟨.load, .blockK cbX⟩ cbX =
      ⟨if (Access.mk .load (.blockK cbX)).action = .load
          then cbX.bank.readLatency else cbX.bank.writeLatency,
        .never, []⟩ :=
  C1_theorem amEnv leTriv 5 ⟨.load, .blockK cbX⟩ cbX (by decide)
    (Or.inl rfl) (Or.inl rfl) ⟨2, rfl, by decide⟩

/-- Claim C3 (counterexample).  In the MAY domain the TOP state is
`make(0)` — the all-zero vector — not the all-`A` vector; and the join of
the two (non-BOT) states `[1]` of the 1-way, 1-block domain is promoted to
that TOP `[0]`, not the pointwise minimum `[1]`. -/
theorem C3_counterexample :
    mayTopVec ⟨1, 1⟩ ≠ List.replicate 1 (DomParams.A ⟨1, 1⟩) ∧
    mayJoin ⟨1, 1⟩ (some [1]) (some [1]) = some [0] ∧
    mayJoin ⟨1, 1⟩ (some [1]) (some [1]) ≠
      some (List.zipWith min [1] [1]) := by
  refine ⟨by decide, by decide, by decide⟩

/-- Claim C3 (amended).  In the MAY domain the entry state is the all-zero
vector; the TOP state is also the all-zero vector (`make(0)`); BOT is the
identity of the join; and the join of two non-BOT states is their pointwise
minimum except that the TOP vector is returned when an operand equals TOP
or the sum of the pointwise minima equals `sumA`. -/
theorem C3_theorem (d : DomParams) (v1 v2 : AgeVec) :
    mayEntryVec d = List.replicate d.n 0 ∧
    mayTopVec d = List.replicate d.n 0 ∧
    (∀ s : AcsState, mayJoin d none s = s ∧ mayJoin d s none = s) ∧
    (v1 ≠ mayTopVec d → v2 ≠ mayTopVec d →
      (List.zipWith min v1 v2).sum ≠ d.sumA →
      mayJoin d (some v1) (some v2) = some (List.zipWith min v1 v2)) ∧
    ((v1 = mayTopVec d ∨ v2 = mayTopVec d ∨
        (List.zipWith min v1 v2).sum = d.sumA) →
      mayJoin d (some v1) (some v2) = some (mayTopVec d)) := by
  refine ⟨by simp [mayEntryVec, makeVec], by simp [mayTopVec, makeVec],
    fun s => ⟨rfl, by cases s <;> rfl⟩, fun h1 h2 hs => ?_, fun h => ?_⟩
  · simp [mayJoin, h1, h2, hs]
  · rcases h with h | h | h
    · simp [mayJoin, h]
    · simp [mayJoin, h]
    · by_cases htop : v1 = mayTopVec d ∨ v2 = mayTopVec d
      · rcases htop with htop | htop <;> simp [mayJoin, htop]
      · push_neg at htop
        simp [mayJoin, htop.1, htop.2, h]

/-- Claim C3 (witness of the amended theorem: the 1-way, 1-block domain
with the two join cases exercised). -/
theorem C3_witness :
    mayJoin ⟨1, 1⟩ (some [1]) (some [1]) = some (mayTopVec ⟨1, 1⟩) ∧
    mayJoin ⟨1, 2⟩ (some [1, 0]) (some [0, 1]) =
      some (List.zipWith min [1, 0] [0, 1]) := by
  constructor
  · exact (C3_theorem ⟨1, 1⟩ [1] [1]).2.2.2.2 (Or.inr (Or.inr (by decide)))
  · exact (C3_theorem ⟨1, 2⟩ [1, 0] [0, 1]).2.2.2.1 (by decide) (by decide)
      (by decide)

/-- Claim C4 (counterexample).  `Access::access(int)` sends `first = last`
to the wrap branch `f <= set || set <= l`, which holds for *every* set: the
RANGE `[0, 0]` touches set 1, while the circular interval `[0, 0]` — and
the claim's "only `t = first`" — does not contain 1. -/
theorem C4_counterexample :
    (Access.mk .load (.rangeK 0 0)).accessSet 1 = true ∧
    circTouches 0 0 1 = false := by
  refine ⟨by decide, by decide⟩

/-- Claim C4 (amended).  For a RANGE or ENUM access, `access(t)` agrees
with the circular interval from `first` to `last` whenever
`first ≠ last`; but when `first = last` it returns true for *every* set
`t`, not only for `t = first`. -/
theorem C4_theorem (act : ActionT) (f l t : Nat) (bs : List CacheBlock) :
    (f ≠ l →
      (Access.mk act (.rangeK f l)).accessSet t = circTouches f l t ∧
      (Access.mk act (.enumK f l bs)).accessSet t = circTouches f l t) ∧
    (f = l →
      (Access.mk act (.rangeK f l)).accessSet t = true ∧
      (Access.mk act (.enumK f l bs)).accessSet t = true) := by
  constructor
  · intro hne
    by_cases h : f < l
    · have h2 : f ≤ l := Nat.le_of_lt h
      constructor <;> simp [Access.accessSet, circTouches, h, h2]
    · have h2 : ¬ f ≤ l := by omega
      constructor <;> simp [Access.accessSet, circTouches, h, h2]
  · intro heq
    subst heq
    have h : ¬ f < f := Nat.lt_irrefl f
    have ht : f ≤ t ∨ t ≤ f := Nat.le_total f t
    constructor <;> simp [Access.accessSet, h] <;> omega

/-- Claim C4 (witness of the amended theorem: the non-wrap interval
`[0, 2]` at set 1, and the degenerate interval `[3, 3]` at set 0). -/
theorem C4_witness :
    (Access.mk .load (.rangeK 0 2)).accessSet 1 = circTouches 0 2 1 ∧
    (Access.mk .load (.rangeK 3 3)).accessSet 0 = true := by
  constructor
  · exact ((C4_theorem .load 0 2 1 []).1 (by decide)).1
  · exact ((C4_theorem .load 3 3 0 []).2 rfl).1

/-- The sum of a constant list. -/
theorem sum_replicate_nat (n x : Nat) : (List.replicate n x).sum = n * x := by
  induction n with
  | zero => simp
  | succ k ih => rw [List.replicate_succ, List.sum_cons, ih, Nat.succ_mul]; omega

/-- Claim C6 (confirmed).  `PERS::join` with BOT as identity; for non-BOT
operands the result is the position-wise maximum with a `⊥` age absorbed by
the other operand's age, and it is TOP exactly when the number of positions
with age < A and ≠ `⊥` exceeds A or the sum of the resulting entries
equals A·N.  The entries are the stored `ACS::age_t` bytes, so a `⊥`
position contributes its encoding 255 to the sum, exactly as the source's
`sum += s->age[i]`; the hypotheses keep the 8-bit fields `A` and `sumA`
exact. -/
theorem C6_theorem (assoc n : Nat) (h2 : assoc < 256)
    (h3 : assoc * n < 256) (v1 v2 : AgeVec) :
    (∀ s : AcsState,
      persJoin ⟨assoc, n⟩ none s = s ∧ persJoin ⟨assoc, n⟩ s none = s) ∧
    (persJoin ⟨assoc, n⟩ (some v1) (some v2) =
        some (persTopVec ⟨assoc, n⟩) ↔
      assoc < (List.zipWith persAbsorb v1 v2).countP
          (fun x => decide (x < assoc) && decide (x ≠ AGE_BOT)) ∨
      (List.zipWith persAbsorb v1 v2).sum = assoc * n) ∧
    ((List.zipWith persAbsorb v1 v2).countP
          (fun x => decide (x < assoc) && decide (x ≠ AGE_BOT)) ≤ assoc →
      (List.zipWith persAbsorb v1 v2).sum ≠ assoc * n →
      persJoin ⟨assoc, n⟩ (some v1) (some v2) =
        some (List.zipWith persAbsorb v1 v2)) := by
  have hA : DomParams.A ⟨assoc, n⟩ = assoc := Nat.mod_eq_of_lt h2
  have hsumA : DomParams.sumA ⟨assoc, n⟩ = assoc * n := Nat.mod_eq_of_lt h3
  have htopsum : (persTopVec ⟨assoc, n⟩).sum = assoc * n := by
    unfold persTopVec makeVec
    rw [Nat.mod_eq_of_lt h2, sum_replicate_nat, Nat.mul_comm]
  refine ⟨fun s => ⟨rfl, by cases s <;> rfl⟩, ?_, ?_⟩
  · simp only [persJoin, hA, hsumA]
    constructor
    · intro hres
      by_cases hc : (List.zipWith persAbsorb v1 v2).countP
          (fun x => decide (x < assoc) && decide (x ≠ AGE_BOT)) ≤ assoc ∧
          (List.zipWith persAbsorb v1 v2).sum ≠ assoc * n
      · rw [if_pos hc] at hres
        have hwtop : List.zipWith persAbsorb v1 v2 = persTopVec ⟨assoc, n⟩ :=
          by injection hres
        have hws : (List.zipWith persAbsorb v1 v2).sum = assoc * n := by
          rw [hwtop, htopsum]
        exact absurd hws hc.2
      · omega
    · intro hor
      have hc : ¬ ((List.zipWith persAbsorb v1 v2).countP
          (fun x => decide (x < assoc) && decide (x ≠ AGE_BOT)) ≤ assoc ∧
          (List.zipWith persAbsorb v1 v2).sum ≠ assoc * n) := by omega
      rw [if_neg hc]
  · intro hcnt hsum
    simp only [persJoin, hA, hsumA]
    rw [if_pos ⟨hcnt, hsum⟩]

/-- Claim C6 (witness: a 2-way set with three blocks — one join that keeps
the absorbing maxima `[1, 255, 1]` and one that is promoted to TOP because
its sum reaches A·N). -/
theorem C6_witness :
    persJoin ⟨2, 3⟩ (some [0, 255, 1]) (some [1, 255, 255]) =
      some (List.zipWith persAbsorb [0, 255, 1] [1, 255, 255]) ∧
    persJoin ⟨2, 3⟩ (some [2, 2, 2]) (some [2, 2, 2]) =
      some (persTopVec ⟨2, 3⟩) := by
  obtain ⟨hbot, hiff, hkeep⟩ := C6_theorem 2 3 (by decide) (by decide)
    [0, 255, 1] [1, 255, 255]
  obtain ⟨hbot2, hiff2, hkeep2⟩ := C6_theorem 2 3 (by decide) (by decide)
    [2, 2, 2] [2, 2, 2]
  exact ⟨hkeep (by decide) (by decide), hiff2.mpr (by decide)⟩

/-- Claim C10 (confirmed).  `A` and `sumA` are stored in the 8-bit
`ACS::age_t` fields of `ACSDomain`, so `sumA = (assoc · blockCount) % 256`;
whenever the true product reaches 256 the stored bound differs from it, and
every TOP-promotion test present in `MUST::join`, `MUST::purge`,
`MUST::accessAny`, `MAY::join` and `MAY::purge` compares the exact integer
sum of the ages of the computed vector against this modulo-256 value. -/
theorem C10_theorem (assoc n : Nat) (h : 256 ≤ assoc * n) :
    DomParams.sumA ⟨assoc, n⟩ = (assoc * n) % 256 ∧
    DomParams.A ⟨assoc, n⟩ = assoc % 256 ∧
    DomParams.sumA ⟨assoc, n⟩ ≠ assoc * n ∧
    (∀ v1 v2 : AgeVec, v1 ≠ mustTopVec ⟨assoc, n⟩ →
      v2 ≠ mustTopVec ⟨assoc, n⟩ →
      ((List.zipWith max v1 v2).sum = (assoc * n) % 256 →
        mustJoin ⟨assoc, n⟩ (some v1) (some v2) =
          some (mustTopVec ⟨assoc, n⟩)) ∧
      ((List.zipWith max v1 v2).sum ≠ (assoc * n) % 256 →
        mustJoin ⟨assoc, n⟩ (some v1) (some v2) =
          some (List.zipWith max v1 v2))) ∧
    (∀ (v : AgeVec) (b : Nat),
      ((v.set b (DomParams.A ⟨assoc, n⟩)).sum = (assoc * n) % 256 →
        mustPurge ⟨assoc, n⟩ v b = some (mustTopVec ⟨assoc, n⟩)) ∧
      ((v.set b (DomParams.A ⟨assoc, n⟩)).sum ≠ (assoc * n) % 256 →
        mustPurge ⟨assoc, n⟩ v b =
          some (v.set b (DomParams.A ⟨assoc, n⟩)))) ∧
    (∀ v : AgeVec,
      ((v.map (fun x => min (DomParams.A ⟨assoc, n⟩) (x + 1))).sum =
          (assoc * n) % 256 →
        mustAccessAny ⟨assoc, n⟩ v = some (mustTopVec ⟨assoc, n⟩)) ∧
      ((v.map (fun x => min (DomParams.A ⟨assoc, n⟩) (x + 1))).sum ≠
          (assoc * n) % 256 →
        mustAccessAny ⟨assoc, n⟩ v =
          some (v.map (fun x => min (DomParams.A ⟨assoc, n⟩) (x + 1))))) ∧
    (∀ v1 v2 : AgeVec, v1 ≠ mayTopVec ⟨assoc, n⟩ →
      v2 ≠ mayTopVec ⟨assoc, n⟩ →
      ((List.zipWith min v1 v2).sum = (assoc * n) % 256 →
        mayJoin ⟨assoc, n⟩ (some v1) (some v2) =
          some (mayTopVec ⟨assoc, n⟩)) ∧
      ((List.zipWith min v1 v2).sum ≠ (assoc * n) % 256 →
        mayJoin ⟨assoc, n⟩ (some v1) (some v2) =
          some (List.zipWith min v1 v2))) ∧
    (∀ (v : AgeVec) (b : Nat),
      ((v.set b (DomParams.A ⟨assoc, n⟩)).sum = (assoc * n) % 256 →
        mayPurge ⟨assoc, n⟩ v b = some (mayTopVec ⟨assoc, n⟩)) ∧
      ((v.set b (DomParams.A ⟨assoc, n⟩)).sum ≠ (assoc * n) % 256 →
        mayPurge ⟨assoc, n⟩ v b =
          some (v.set b (DomParams.A ⟨assoc, n⟩)))) := by
  have hmod : (assoc * n) % 256 ≠ assoc * n := by
    have := Nat.mod_lt (assoc * n) (show 0 < 256 by decide)
    omega
  refine ⟨rfl, rfl, by simpa [DomParams.sumA] using hmod,
    fun v1 v2 h1 h2 => ⟨fun hs => ?_, fun hs => ?_⟩,
    fun v b => ⟨fun hs => ?_, fun hs => ?_⟩,
    fun v => ⟨fun hs => ?_, fun hs => ?_⟩,
    fun v1 v2 h1 h2 => ⟨fun hs => ?_, fun hs => ?_⟩,
    fun v b => ⟨fun hs => ?_, fun hs => ?_⟩⟩
  · simp [mustJoin, h1, h2, DomParams.sumA, hs]
  · simp [mustJoin, h1, h2, DomParams.sumA, hs]
  · simp [mustPurge, DomParams.sumA, hs]
  · simp [mustPurge, DomParams.sumA, hs]
  · simp [mustAccessAny, DomParams.sumA, hs]
  · simp [mustAccessAny, DomParams.sumA, hs]
  · simp [mayJoin, h1, h2, DomParams.sumA, hs]
  · simp [mayJoin, h1, h2, DomParams.sumA, hs]
  · simp [mayPurge, DomParams.sumA, hs]
  · simp [mayPurge, DomParams.sumA, hs]

/-- Claim C10 (witness: a 16-way set with 16 blocks, where A·N = 256 makes
`sumA = 0`, so the MUST join of two all-zero — everything young — states is
promoted to the TOP all-16 vector by the wrapped test). -/
theorem C10_witness :
    (256 ≤ 16 * 16) ∧
    DomParams.sumA ⟨16, 16⟩ ≠ 16 * 16 ∧
    mustJoin ⟨16, 16⟩ (some (List.replicate 16 0))
        (some (List.replicate 16 0)) = some (mustTopVec ⟨16, 16⟩) := by
  obtain ⟨h0, h1, hne, hjoin, hrest⟩ := C10_theorem 16 16 (by decide)
  exact ⟨by decide, hne,
    (hjoin (List.replicate 16 0) (List.replicate 16 0) (by decide)
      (by decide)).1 (by decide)⟩

end Dcache
